import Mathlib

/-!
Verification of the physical-frame allocator and early-boot memory routines
of a small RISC-V kernel, shallowly embedded from the Rust sources
(`kernel/src/frame.rs`, `kernel/src/main.rs`, `src/main.rs`,
`crates/allocator/src/lib.rs`).

Machine integers (`usize`) are modelled as `Nat`; panics (`todo!()`,
index-out-of-bounds, subtraction overflow) are modelled as `Option` results.
Byte memory is modelled as a function `Nat → Nat` from addresses to byte
values.
-/

namespace RV64OS

/-- PAGE_SIZE of the kernel: the literal `0x1000` used throughout `frame.rs`. -/
def PAGE_SIZE : Nat := 0x1000

/-- Embeds `struct FrameAllocator { start: usize, size: usize, usage: Vec<bool> }`
from `kernel/src/frame.rs`. -/
structure FrameAllocator where
  start : Nat
  size : Nat
  usage : List Bool
deriving DecidableEq, Repr

/-- Embeds `TrackerFrame(pub usize)` from `kernel/src/frame.rs`: a handle
wrapping a single physical address. -/
structure TrackerFrame where
  val : Nat
deriving DecidableEq, Repr

/-- Embeds `FrameAllocator::new()`: `start = 0, size = 0, usage = vec![]`. -/
def FrameAllocator.new : FrameAllocator :=
  { start := 0, size := 0, usage := [] }

/-- Embeds `FrameAllocator::add_memory(&mut self, start, size)`: all three
fields of `self` are overwritten; `usage = vec![false; size / 0x1000]`. -/
def FrameAllocator.add_memory (_fa : FrameAllocator) (start size : Nat) :
    FrameAllocator :=
  { start := start, size := size,
    usage := List.replicate (size / 0x1000) false }

/-- Index of the first `false` entry of a boolean list, scanning from the
head: the loop `for i in 0..self.usage.len() { if self.usage[i] == false ... }`
of `FrameAllocator::alloc`. Returns `none` when every entry is `true`. -/
def firstFreeIdx : List Bool → Option Nat
  | [] => none
  | b :: rest => if b then (firstFreeIdx rest).map (· + 1) else some 0

/-- Embeds `FrameAllocator::alloc(&mut self) -> TrackerFrame`: first-fit scan
for a free slot; marks it used and returns `TrackerFrame(start + i * 0x1000)`.
The `todo!()` reached when no slot is free is a panic, modelled as `none`. -/
def FrameAllocator.alloc (fa : FrameAllocator) :
    Option (FrameAllocator × TrackerFrame) :=
  match firstFreeIdx fa.usage with
  | some i =>
      some ({ fa with usage := fa.usage.set i true },
            TrackerFrame.mk (fa.start + i * 0x1000))
  | none => none

/-- Embeds `FrameAllocator::dealloc(&mut self, addr)`:
`let page_index = (addr - self.start) / 0x1000; self.usage[page_index] = false;`.
When `addr < start` the `usize` subtraction panics in debug builds and in
release builds wraps to a huge index that then fails the bounds check of
`self.usage[page_index]`; both panics are modelled as `none`, as is an
out-of-bounds `page_index`. -/
def FrameAllocator.dealloc (fa : FrameAllocator) (addr : Nat) :
    Option FrameAllocator :=
  if fa.start ≤ addr then
    let page_index := (addr - fa.start) / 0x1000
    if page_index < fa.usage.length then
      some { fa with usage := fa.usage.set page_index false }
    else none
  else none

/-- Embeds `impl Drop for TrackerFrame`: dropping the handle performs
`FRAME_ALLOCATOR.lock().dealloc(self.0)` — one dealloc call on the wrapped
address. -/
def TrackerFrame.drop (t : TrackerFrame) (fa : FrameAllocator) :
    Option FrameAllocator :=
  fa.dealloc t.val

/-- Embeds `const STACK_SIZE: usize = 0x8_0000` from `kernel/src/main.rs`
(the historical snapshot `src/main.rs` uses the same literal `0x80000`). -/
def STACK_SIZE : Nat := 0x80000

/-- Embeds `clear_bss` from `kernel/src/main.rs` (identical in `src/main.rs`):
`from_raw_parts_mut(start as *mut u8, end - start).fill(0)` writes the byte 0
to each of the `end - start` byte addresses beginning at `start`. Memory is a
map from addresses to byte values; the linker symbols `_sbss`/`_ebss` are the
`sbss`/`ebss` parameters. -/
def clear_bss (mem : Nat → Nat) (sbss ebss : Nat) : Nat → Nat :=
  fun a => if sbss ≤ a ∧ a < sbss + (ebss - sbss) then 0 else mem a

/-- Writes the 16 zero bytes of one `u128` store at address `addr`: one
element written by the `fill(0)` over the `u128` slice in `add_frame_area`. -/
def writeU128Zero (mem : Nat → Nat) (addr : Nat) : Nat → Nat :=
  fun a => if addr ≤ a ∧ a < addr + 16 then 0 else mem a

/-- Performs the first `n` of the `u128` stores of
`from_raw_parts_mut(start as *mut u128, size / 16).fill(0)`: element `k`
zeroes the 16 bytes at `start + 16 * k`. -/
def fillZeroStrides (mem : Nat → Nat) (start : Nat) : Nat → Nat → Nat
  | 0 => mem
  | n + 1 => writeU128Zero (fillZeroStrides mem start n) (start + 16 * n)

/-- Embeds `add_frame_area(start, size)` from `kernel/src/frame.rs`: zero the
`size / 16` 16-byte strides starting at `start`, then
`FRAME_ALLOCATOR.lock().add_memory(start, size)`. Returns the memory after
the clearing together with the allocator after the seeding. -/
def add_frame_area (mem : Nat → Nat) (fa : FrameAllocator)
    (start size : Nat) : (Nat → Nat) × FrameAllocator :=
  (fillZeroStrides mem start (size / 16), fa.add_memory start size)

/-- Embeds the memory-region loop of `main` in `kernel/src/main.rs`
(lines 150–158): for a reported region with base `region_base` and length
`region_size`, and `get_kernel_range().1 = kernel_end`,
`mem_start = kernel_end` and
`mem_size = region_size - (kernel_end - 0x8000_0000)`.
The reported base `region_base` is logged but not used in the computation. -/
def compute_frame_region (_region_base region_size kernel_end : Nat) :
    Nat × Nat :=
  (kernel_end, region_size - (kernel_end - 0x80000000))

/-- A snapshot of the frame-allocation system: the allocator singleton, the
list of live `TrackerFrame` handles currently in scope, and the counters the
accounting claim speaks about — `alloc` calls that returned a handle and
completed `dealloc` calls. -/
structure SysState where
  fa : FrameAllocator
  live : List TrackerFrame
  allocCount : Nat
  deallocCount : Nat

/-- One operation of the allocator lifecycle: an `alloc()` call that returns
a handle (the handle becomes live), or the scope end of a live handle, whose
`Drop` implementation performs exactly one `dealloc` call on the wrapped
address (`TrackerFrame.drop`). A failing `alloc` or `dealloc` panics and has
no successor state. -/
inductive SysStep : SysState → SysState → Prop
  | alloc (s : SysState) (fa2 : FrameAllocator) (t : TrackerFrame) :
      s.fa.alloc = some (fa2, t) →
      SysStep s ⟨fa2, t :: s.live, s.allocCount + 1, s.deallocCount⟩
  | drop (s : SysState) (fa2 : FrameAllocator) (t : TrackerFrame) :
      t ∈ s.live →
      t.drop s.fa = some fa2 →
      SysStep s ⟨fa2, s.live.erase t, s.allocCount, s.deallocCount + 1⟩

/-- The system state right after `add_memory(start, size)` on the fresh
allocator: no live handles, no operations counted yet. -/
def seededState (start size : Nat) : SysState :=
  ⟨FrameAllocator.new.add_memory start size, [], 0, 0⟩

/-- Inductive invariant behind C1: every live handle wraps the address of a
slot currently marked allocated, no two live handles share an address, and
the number of allocated slots equals the number of live handles, which
balances the two counters. -/
def SysInv (s : SysState) : Prop :=
  (∀ t ∈ s.live, ∃ i, s.fa.usage.get? i = some true ∧
      t.val = s.fa.start + i * 0x1000) ∧
  s.live.Pairwise (fun a b => a.val ≠ b.val) ∧
  s.fa.usage.count true = s.live.length ∧
  s.live.length + s.deallocCount = s.allocCount

end RV64OS

namespace RV64OS

/-- Helper: a successful scan result names a free slot and every slot before
it is occupied. -/
theorem firstFreeIdx_some_spec (l : List Bool) (i : Nat)
    (h : firstFreeIdx l = some i) :
    l.get? i = some false ∧ ∀ j, j < i → l.get? j = some true := by
  induction l generalizing i with
  | nil => simp [firstFreeIdx] at h
  | cons b rest ih =>
    cases b with
    | false =>
      simp [firstFreeIdx] at h
      subst h
      exact ⟨rfl, fun j hj => absurd hj (Nat.not_lt_zero j)⟩
    | true =>
      simp only [firstFreeIdx, if_true] at h
      obtain ⟨i0, hi0, hsum⟩ := Option.map_eq_some'.mp h
      obtain ⟨hget, hmin⟩ := ih i0 hi0
      subst hsum
      refine ⟨hget, fun j hj => ?_⟩
      cases j with
      | zero => rfl
      | succ k => exact hmin k (Nat.lt_of_succ_lt_succ hj)

/-- Helper: when every slot is occupied the scan fails. -/
theorem firstFreeIdx_eq_none (l : List Bool) (h : ∀ b ∈ l, b = true) :
    firstFreeIdx l = none := by
  induction l with
  | nil => rfl
  | cons b rest ih =>
    have hb : b = true := h b (List.mem_cons_self b rest)
    subst hb
    simp [firstFreeIdx, ih fun x hx => h x (List.mem_cons_of_mem _ hx)]

/-- Helper: a free slot somewhere makes the scan succeed. -/
theorem firstFreeIdx_isSome_of_mem (l : List Bool) (h : false ∈ l) :
    ∃ i, firstFreeIdx l = some i := by
  induction l with
  | nil => simp at h
  | cons b rest ih =>
    cases b with
    | false => exact ⟨0, rfl⟩
    | true =>
      have hr : false ∈ rest := by simpa using h
      obtain ⟨i, hi⟩ := ih hr
      exact ⟨i + 1, by simp [firstFreeIdx, hi]⟩

/-- C2: first-fit allocation — on any allocator state with at least one free
usage slot, `alloc` picks the smallest index `i` with `usage[i] = false`
(every smaller index is occupied), sets exactly that slot to `true`, leaves
`start`, `size` and every other slot unchanged, and returns a handle wrapping
`start + i * PAGE_SIZE`. -/
theorem alloc_first_fit (fa : FrameAllocator) (h : false ∈ fa.usage) :
    ∃ i, fa.usage.get? i = some false ∧
      (∀ j, j < i → fa.usage.get? j = some true) ∧
      fa.alloc = some ({ start := fa.start, size := fa.size,
                         usage := fa.usage.set i true },
                       TrackerFrame.mk (fa.start + i * PAGE_SIZE)) ∧
      (∀ j, j ≠ i → (fa.usage.set i true).get? j = fa.usage.get? j) := by
  obtain ⟨i, hi⟩ := firstFreeIdx_isSome_of_mem _ h
  obtain ⟨hfalse, hmin⟩ := firstFreeIdx_some_spec _ _ hi
  refine ⟨i, hfalse, hmin, ?_, ?_⟩
  · unfold FrameAllocator.alloc
    rw [hi]
    rfl
  · intro j hj
    exact List.get?_set_ne _ _ (Ne.symm hj)

/-- Witness for C2 at the concrete state `⟨0, 0x2000, [true, false]⟩`. -/
theorem alloc_first_fit_witness :
    ∃ i, (FrameAllocator.mk 0 0x2000 [true, false]).usage.get? i
        = some false ∧
      (∀ j, j < i → (FrameAllocator.mk 0 0x2000 [true, false]).usage.get? j
        = some true) ∧
      (FrameAllocator.mk 0 0x2000 [true, false]).alloc =
        some ({ start := (FrameAllocator.mk 0 0x2000 [true, false]).start,
                size := (FrameAllocator.mk 0 0x2000 [true, false]).size,
                usage := (FrameAllocator.mk 0 0x2000 [true, false]).usage.set
                  i true },
              TrackerFrame.mk ((FrameAllocator.mk 0 0x2000 [true, false]).start
                + i * PAGE_SIZE)) ∧
      (∀ j, j ≠ i →
        ((FrameAllocator.mk 0 0x2000 [true, false]).usage.set i true).get? j
          = (FrameAllocator.mk 0 0x2000 [true, false]).usage.get? j) :=
  alloc_first_fit (FrameAllocator.mk 0 0x2000 [true, false]) (by decide)

/-- C3: seeding postcondition — `add_memory(start, size)` records `start` and
`size` and creates exactly `size / PAGE_SIZE` tracking slots, all initially
free; seeding with `(0x80200000, 0x1000000)` yields exactly `0x1000` slots,
all free, and the first `alloc()` after that seeding returns a handle
wrapping address `0x80200000`. -/
theorem add_memory_postcondition (fa : FrameAllocator) (s z : Nat) :
    (fa.add_memory s z).start = s ∧ (fa.add_memory s z).size = z ∧
    (fa.add_memory s z).usage = List.replicate (z / PAGE_SIZE) false ∧
    (FrameAllocator.new.add_memory 0x80200000 0x1000000).usage.length
      = 0x1000 ∧
    (∀ b ∈ (FrameAllocator.new.add_memory 0x80200000 0x1000000).usage,
      b = false) ∧
    (∃ fa1, (FrameAllocator.new.add_memory 0x80200000 0x1000000).alloc =
        some (fa1, TrackerFrame.mk 0x80200000)) := by
  refine ⟨rfl, rfl, rfl, ?_, ?_, ⟨_, rfl⟩⟩
  · simp only [FrameAllocator.add_memory, List.length_replicate]
  · intro b hb
    exact List.eq_of_mem_replicate hb

/-- C4: exhaustion — `alloc` on a state with no free slot hits the fatal
`todo!()` (modelled as `none`) and never returns a handle; after seeding with
`size = 0x1000` (one page) the first `alloc()` succeeds with address
`0x80200000` and the second reaches the fatal condition. -/
theorem alloc_exhaustion (fa : FrameAllocator) (h : ∀ b ∈ fa.usage, b = true) :
    fa.alloc = none ∧
    (∃ fa1, (FrameAllocator.new.add_memory 0x80200000 0x1000).alloc =
        some (fa1, TrackerFrame.mk 0x80200000) ∧ fa1.alloc = none) := by
  constructor
  · unfold FrameAllocator.alloc
    rw [firstFreeIdx_eq_none _ h]
  · exact ⟨FrameAllocator.mk 0x80200000 0x1000 [true], rfl, rfl⟩

/-- Witness for C4 at the concrete exhausted state
`⟨0x80200000, 0x1000, [true]⟩`. -/
theorem alloc_exhaustion_witness :
    (FrameAllocator.mk 0x80200000 0x1000 [true]).alloc = none ∧
    (∃ fa1, (FrameAllocator.new.add_memory 0x80200000 0x1000).alloc =
        some (fa1, TrackerFrame.mk 0x80200000) ∧ fa1.alloc = none) :=
  alloc_exhaustion (FrameAllocator.mk 0x80200000 0x1000 [true]) (by decide)

/-- C8: segment-zeroing postcondition — after `clear_bss` every byte in
`[_sbss, _ebss)` equals 0, whatever its prior content, and every byte outside
that range is unchanged. -/
theorem clear_bss_spec (mem : Nat → Nat) (sbss ebss a : Nat) :
    (sbss ≤ a → a < ebss → clear_bss mem sbss ebss a = 0) ∧
    ((a < sbss ∨ ebss ≤ a) → clear_bss mem sbss ebss a = mem a) := by
  constructor
  · intro h1 h2
    have hc : sbss ≤ a ∧ a < sbss + (ebss - sbss) := by omega
    simp only [clear_bss]
    exact if_pos hc
  · intro h
    have hc : ¬(sbss ≤ a ∧ a < sbss + (ebss - sbss)) := by omega
    simp only [clear_bss]
    exact if_neg hc

/-- Witness for C8 with garbage byte 0xAB, bss range [0x100, 0x108). -/
theorem clear_bss_spec_witness :
    clear_bss (fun _ => 0xAB) 0x100 0x108 0x104 = 0 ∧
    clear_bss (fun _ => 0xAB) 0x100 0x108 0x200 = 0xAB :=
  ⟨(clear_bss_spec (fun _ => 0xAB) 0x100 0x108 0x104).1 (by decide)
     (by decide),
   (clear_bss_spec (fun _ => 0xAB) 0x100 0x108 0x200).2
     (Or.inr (by decide))⟩

/-- C5 counterexample: for a firmware-reported region with base `0x90000000`
and length `0x1000000`, and kernel image end `0x80210000`, the claimed seeded
range `[kernel_image_end, region_base + region_size)` does not hold: the code
hardcodes `0x80000000` in place of the region base, so the computed range
ends at `0x81000000`, not `0x91000000`. -/
theorem compute_frame_region_counterexample :
    ¬ ((compute_frame_region 0x90000000 0x1000000 0x80210000).1
        = 0x80210000 ∧
       (compute_frame_region 0x90000000 0x1000000 0x80210000).1 +
         (compute_frame_region 0x90000000 0x1000000 0x80210000).2
        = 0x90000000 + 0x1000000) := by decide

/-- C5 amended: the range passed to seeding is
`[kernel_image_end, 0x80000000 + region_size)` — the code uses the hardcoded
constant `0x80000000`, not the reported region base — which coincides with
`[kernel_image_end, region_base + region_size)` exactly when the region base
is `0x80000000`; in the concrete case, region `[0x80000000, 0x88000000)` with
kernel image `[0x80200000, 0x80210000)` seeds `[0x80210000, 0x88000000)`. -/
theorem compute_frame_region_spec (region_base region_size kernel_end : Nat)
    (h1 : 0x80000000 ≤ kernel_end)
    (h2 : kernel_end - 0x80000000 ≤ region_size) :
    (compute_frame_region region_base region_size kernel_end).1
      = kernel_end ∧
    (compute_frame_region region_base region_size kernel_end).1 +
      (compute_frame_region region_base region_size kernel_end).2
      = 0x80000000 + region_size ∧
    (compute_frame_region 0x80000000 0x8000000 0x80210000).1
      = 0x80210000 ∧
    (compute_frame_region 0x80000000 0x8000000 0x80210000).1 +
      (compute_frame_region 0x80000000 0x8000000 0x80210000).2
      = 0x88000000 := by
  refine ⟨rfl, ?_, rfl, by decide⟩
  simp only [compute_frame_region]
  omega

/-- Witness for C5 (amended) at the concrete region of the spec. -/
theorem compute_frame_region_spec_witness :
    (compute_frame_region 0x80000000 0x8000000 0x80210000).1
      = 0x80210000 ∧
    (compute_frame_region 0x80000000 0x8000000 0x80210000).1 +
      (compute_frame_region 0x80000000 0x8000000 0x80210000).2
      = 0x80000000 + 0x8000000 ∧
    (compute_frame_region 0x80000000 0x8000000 0x80210000).1
      = 0x80210000 ∧
    (compute_frame_region 0x80000000 0x8000000 0x80210000).1 +
      (compute_frame_region 0x80000000 0x8000000 0x80210000).2
      = 0x88000000 :=
  compute_frame_region_spec 0x80000000 0x8000000 0x80210000 (by decide)
    (by decide)

/-- C6 counterexample: seed with `start = 0`, `size = 0x1800` (one full page
plus half a page, hence a single tracking slot). The address `0x1000` is
page-aligned and lies in `[start, start + size)`, yet `dealloc(0x1000)`
computes slot index 1, which is out of bounds for the one-slot usage vector,
so the code panics (modelled as `none`) instead of clearing a slot. -/
theorem dealloc_counterexample :
    (FrameAllocator.new.add_memory 0 0x1800).dealloc 0x1000 = none ∧
    0x1000 % PAGE_SIZE = 0 ∧
    (FrameAllocator.new.add_memory 0 0x1800).start ≤ 0x1000 ∧
    0x1000 < (FrameAllocator.new.add_memory 0 0x1800).start +
      (FrameAllocator.new.add_memory 0 0x1800).size := by decide

/-- C6 amended: for every seeded Frame Allocator and every page-aligned
address `addr` in `[start, start + size)` whose slot index
`(addr - start) / PAGE_SIZE` is below the number of tracking slots
`size / PAGE_SIZE` (automatic when `size` is a multiple of `PAGE_SIZE`),
`dealloc(addr)` clears exactly that slot and leaves `start`, `size` and every
other slot unchanged. -/
theorem dealloc_spec (fa : FrameAllocator) (addr : Nat)
    (hseed : fa.usage.length = fa.size / PAGE_SIZE)
    (hlo : fa.start ≤ addr)
    (hhi : addr < fa.start + fa.size)
    (halign : addr % PAGE_SIZE = 0)
    (hslot : (addr - fa.start) / PAGE_SIZE < fa.size / PAGE_SIZE) :
    fa.dealloc addr =
      some { fa with
             usage := fa.usage.set ((addr - fa.start) / PAGE_SIZE) false } ∧
    (fa.usage.set ((addr - fa.start) / PAGE_SIZE) false).get?
      ((addr - fa.start) / PAGE_SIZE) = some false ∧
    (∀ j, j ≠ (addr - fa.start) / PAGE_SIZE →
      (fa.usage.set ((addr - fa.start) / PAGE_SIZE) false).get? j
        = fa.usage.get? j) := by
  simp only [PAGE_SIZE] at hseed halign hslot ⊢
  have hlen : (addr - fa.start) / 0x1000 < fa.usage.length := by
    rw [hseed]
    exact hslot
  refine ⟨?_, ?_, ?_⟩
  · unfold FrameAllocator.dealloc
    rw [if_pos hlo]
    simp only [if_pos hlen]
  · exact List.get?_set_eq_of_lt false hlen
  · intro j hj
    exact List.get?_set_ne false fa.usage (Ne.symm hj)

/-- Witness for C6 (amended): seed `(0x80200000, 0x2000)`, dealloc the second
page `0x80201000`. -/
theorem dealloc_spec_witness :
    (FrameAllocator.new.add_memory 0x80200000 0x2000).dealloc 0x80201000 =
      some { FrameAllocator.new.add_memory 0x80200000 0x2000 with
             usage := (FrameAllocator.new.add_memory 0x80200000
               0x2000).usage.set
               ((0x80201000 -
                 (FrameAllocator.new.add_memory 0x80200000 0x2000).start)
                 / PAGE_SIZE) false } ∧
    ((FrameAllocator.new.add_memory 0x80200000 0x2000).usage.set
       ((0x80201000 -
         (FrameAllocator.new.add_memory 0x80200000 0x2000).start)
         / PAGE_SIZE) false).get?
      ((0x80201000 -
        (FrameAllocator.new.add_memory 0x80200000 0x2000).start)
        / PAGE_SIZE) = some false ∧
    (∀ j, j ≠ (0x80201000 -
        (FrameAllocator.new.add_memory 0x80200000 0x2000).start)
        / PAGE_SIZE →
      ((FrameAllocator.new.add_memory 0x80200000 0x2000).usage.set
         ((0x80201000 -
           (FrameAllocator.new.add_memory 0x80200000 0x2000).start)
           / PAGE_SIZE) false).get? j
        = (FrameAllocator.new.add_memory 0x80200000 0x2000).usage.get? j) :=
  dealloc_spec (FrameAllocator.new.add_memory 0x80200000 0x2000) 0x80201000
    (by decide) (by decide) (by decide) (by decide) (by decide)

/-- Helper: a byte inside the first `n` 16-byte strides at `start` reads 0
after the strided fill. -/
theorem fillZeroStrides_eq_zero (mem : Nat → Nat) (start n a : Nat)
    (h1 : start ≤ a) (h2 : a < start + 16 * n) :
    fillZeroStrides mem start n a = 0 := by
  induction n with
  | zero => omega
  | succ k ih =>
    simp only [fillZeroStrides, writeU128Zero]
    by_cases hk : start + 16 * k ≤ a ∧ a < start + 16 * k + 16
    · exact if_pos hk
    · rw [if_neg hk]
      exact ih (by omega)

/-- Helper: a byte outside the first `n` 16-byte strides at `start` is
untouched by the strided fill. -/
theorem fillZeroStrides_eq_of_outside (mem : Nat → Nat) (start n a : Nat)
    (h : a < start ∨ start + 16 * n ≤ a) :
    fillZeroStrides mem start n a = mem a := by
  induction n with
  | zero => rfl
  | succ k ih =>
    simp only [fillZeroStrides, writeU128Zero]
    rw [if_neg (by omega)]
    exact ih (by omega)

/-- C7 counterexample: `add_frame_area(0, 8)` performs `8 / 16 = 0` strides,
so the byte at address 0, inside `[start, start + size) = [0, 8)`, keeps its
prior nonzero value 0xAB instead of being set to zero. -/
theorem add_frame_area_counterexample :
    ¬ (∀ a, a < 8 →
        (add_frame_area (fun _ => 0xAB) FrameAllocator.new 0 8).1 a = 0) :=
  fun h => absurd (h 0 (by decide)) (by decide)

/-- C7 amended: `add_frame_area(start, size)` zeroes, in 16-byte strides,
every byte of `[start, start + (size / 16) * 16)` — the whole of
`[start, start + size)` exactly when `size` is a multiple of 16; the trailing
`size % 16` bytes are not cleared — leaves all other bytes unchanged, and
records the range in the Frame Allocator via `add_memory(start, size)`. -/
theorem add_frame_area_clears (mem : Nat → Nat) (fa : FrameAllocator)
    (start size a : Nat) :
    (start ≤ a → a < start + (size / 16) * 16 →
      (add_frame_area mem fa start size).1 a = 0) ∧
    ((a < start ∨ start + (size / 16) * 16 ≤ a) →
      (add_frame_area mem fa start size).1 a = mem a) ∧
    (add_frame_area mem fa start size).2 = fa.add_memory start size := by
  refine ⟨?_, ?_, rfl⟩
  · intro h1 h2
    exact fillZeroStrides_eq_zero mem start (size / 16) a h1 (by omega)
  · intro h
    exact fillZeroStrides_eq_of_outside mem start (size / 16) a (by omega)

/-- Witness for C7 (amended): two full strides over garbage bytes 0xAB. -/
theorem add_frame_area_clears_witness :
    (add_frame_area (fun _ => 0xAB) FrameAllocator.new 0x100 0x20).1 0x108
      = 0 ∧
    (add_frame_area (fun _ => 0xAB) FrameAllocator.new 0x100 0x20).1 0x130
      = 0xAB :=
  ⟨(add_frame_area_clears (fun _ => 0xAB) FrameAllocator.new 0x100 0x20
      0x108).1 (by decide) (by decide),
   (add_frame_area_clears (fun _ => 0xAB) FrameAllocator.new 0x100 0x20
      0x130).2.1 (Or.inr (by decide))⟩

/-- C9: the claim says the boot stack constant is 128 KiB, and the source
comment `// 1k * 16 * 8, 128k` agrees, but the constant the code actually
defines is `0x80000 = 524288` bytes, i.e. 512 KiB, not `128 * 1024`. -/
theorem stack_size_eq_512KiB :
    STACK_SIZE = 512 * 1024 ∧ STACK_SIZE ≠ 128 * 1024 := by decide

/-- Helper: an index that reads `some` is within bounds. -/
theorem lt_length_of_get?_some (l : List Bool) (i : Nat) (x : Bool)
    (h : l.get? i = some x) : i < l.length :=
  (List.get?_eq_some.mp h).1

/-- Helper: marking a free slot allocated increases the allocated count by
one. -/
theorem count_true_set_true (l : List Bool) (i : Nat)
    (h : l.get? i = some false) :
    (l.set i true).count true = l.count true + 1 := by
  induction l generalizing i with
  | nil => simp at h
  | cons b rest ih =>
    cases i with
    | zero =>
      have hb : b = false := by simpa using h
      subst hb
      simp [List.count_cons]
    | succ n =>
      have hr : rest.get? n = some false := by simpa using h
      cases b <;> simp [List.count_cons, List.set_cons_succ, ih n hr]

/-- Helper: clearing an allocated slot decreases the allocated count by
one. -/
theorem count_true_set_false (l : List Bool) (i : Nat)
    (h : l.get? i = some true) :
    (l.set i false).count true + 1 = l.count true := by
  induction l generalizing i with
  | nil => simp at h
  | cons b rest ih =>
    cases i with
    | zero =>
      have hb : b = true := by simpa using h
      subst hb
      simp [List.count_cons]
    | succ n =>
      have hr : rest.get? n = some true := by simpa using h
      have hrec := ih n hr
      cases b <;> simp [List.count_cons, List.set_cons_succ] <;> omega

/-- Helper: an all-free usage vector has no allocated slots. -/
theorem count_true_replicate_false (n : Nat) :
    (List.replicate n false).count true = 0 := by
  induction n with
  | zero => rfl
  | succ k ih => simp [List.replicate_succ, List.count_cons, ih]

/-- Helper: the freshly seeded system state satisfies the invariant. -/
theorem sysInv_seededState (start size : Nat) :
    SysInv (seededState start size) := by
  refine ⟨?_, List.Pairwise.nil, ?_, rfl⟩
  · intro t ht
    simp [seededState] at ht
  · simp [seededState, FrameAllocator.add_memory, FrameAllocator.new,
      count_true_replicate_false]

/-- Helper: each alloc or drop step preserves the invariant. -/
theorem sysStep_preserves (s s2 : SysState) (hstep : SysStep s s2)
    (hinv : SysInv s) : SysInv s2 := by
  obtain ⟨hmap, hpw, hcount, hbal⟩ := hinv
  cases hstep with
  | alloc fa2 t halloc =>
    cases hff : firstFreeIdx s.fa.usage with
    | none =>
      simp only [FrameAllocator.alloc, hff] at halloc
      exact Option.noConfusion halloc
    | some i =>
      simp only [FrameAllocator.alloc, hff, Option.some.injEq,
        Prod.mk.injEq] at halloc
      obtain ⟨hfa2, ht⟩ := halloc
      subst hfa2
      subst ht
      obtain ⟨hget, hmin⟩ := firstFreeIdx_some_spec _ _ hff
      have hilt : i < s.fa.usage.length := lt_length_of_get?_some _ _ _ hget
      refine ⟨?_, ?_, ?_, ?_⟩
      · intro t' ht'
        rcases List.mem_cons.mp ht' with he | hm
        · subst he
          exact ⟨i, List.get?_set_eq_of_lt true hilt, rfl⟩
        · obtain ⟨j, hj, hjval⟩ := hmap t' hm
          have hji : j ≠ i := by
            intro he
            rw [he, hget] at hj
            simp at hj
          refine ⟨j, ?_, hjval⟩
          rw [List.get?_set_ne true s.fa.usage fun h => hji h.symm]
          exact hj
      · rw [List.pairwise_cons]
        refine ⟨?_, hpw⟩
        intro t' hm
        obtain ⟨j, hj, hjval⟩ := hmap t' hm
        have hji : j ≠ i := by
          intro he
          rw [he, hget] at hj
          simp at hj
        show s.fa.start + i * 0x1000 ≠ t'.val
        rw [hjval]
        omega
      · show (s.fa.usage.set i true).count true =
          (TrackerFrame.mk (s.fa.start + i * 0x1000) :: s.live).length
        rw [count_true_set_true _ _ hget, hcount, List.length_cons]
      · show (_ :: s.live).length + s.deallocCount = s.allocCount + 1
        rw [List.length_cons]
        omega
  | drop fa2 t hmem hdrop =>
    obtain ⟨j, hj, hjval⟩ := hmap t hmem
    have hjlt : j < s.fa.usage.length := lt_length_of_get?_some _ _ _ hj
    have hle : s.fa.start ≤ t.val := by omega
    have hidx : (t.val - s.fa.start) / 0x1000 = j := by omega
    simp only [TrackerFrame.drop, FrameAllocator.dealloc, hidx] at hdrop
    rw [if_pos hle, if_pos hjlt] at hdrop
    have hfa2 : fa2 = { s.fa with usage := s.fa.usage.set j false } :=
      (Option.some.inj hdrop).symm
    subst hfa2
    have hnodup : s.live.Nodup :=
      hpw.imp fun hab he => hab (congrArg TrackerFrame.val he)
    have h2 := List.length_erase_add_one hmem
    refine ⟨?_, ?_, ?_, ?_⟩
    · intro t' ht'
      have hm : t' ∈ s.live := List.mem_of_mem_erase ht'
      obtain ⟨k, hk, hkval⟩ := hmap t' hm
      have htne : t' ≠ t := by
        intro he
        subst he
        exact hnodup.not_mem_erase ht'
      have hvalne : t'.val ≠ t.val :=
        hpw.forall (fun x y hxy => hxy.symm) hm hmem htne
      have hkj : k ≠ j := by
        intro he
        exact hvalne (by rw [hkval, hjval, he])
      refine ⟨k, ?_, hkval⟩
      rw [List.get?_set_ne false s.fa.usage fun h => hkj h.symm]
      exact hk
    · exact hpw.sublist (List.erase_sublist t s.live)
    · show (s.fa.usage.set j false).count true = (s.live.erase t).length
      have h1 := count_true_set_false _ _ hj
      omega
    · show (s.live.erase t).length + (s.deallocCount + 1) = s.allocCount
      omega

/-- C1: frame accounting invariant — starting from any seeded allocator
state, along every sequence of successful `alloc` calls and handle drops
(each drop performing, through `TrackerFrame.drop`, exactly one `dealloc`
call on the dropped handle's wrapped address), the number of usage slots
marked allocated equals the number of `alloc` calls that returned a handle
minus the number of `dealloc` calls completed, and no two live
`TrackerFrame` handles wrap the same address. -/
theorem frame_accounting (start size : Nat) (s : SysState)
    (h : Relation.ReflTransGen SysStep (seededState start size) s) :
    s.fa.usage.count true + s.deallocCount = s.allocCount ∧
    s.deallocCount ≤ s.allocCount ∧
    s.live.Pairwise (fun a b => a.val ≠ b.val) := by
  have hinv : SysInv s := by
    induction h with
    | refl => exact sysInv_seededState start size
    | tail hcl hstep ih => exact sysStep_preserves _ _ hstep ih
  obtain ⟨-, hpw, hcount, hbal⟩ := hinv
  exact ⟨by omega, by omega, hpw⟩

/-- Witness for C1 at the seeded state `(0x80200000, 0x2000)` itself. -/
theorem frame_accounting_witness :
    (seededState 0x80200000 0x2000).fa.usage.count true +
      (seededState 0x80200000 0x2000).deallocCount
      = (seededState 0x80200000 0x2000).allocCount ∧
    (seededState 0x80200000 0x2000).deallocCount ≤
      (seededState 0x80200000 0x2000).allocCount ∧
    (seededState 0x80200000 0x2000).live.Pairwise
      (fun a b => a.val ≠ b.val) :=
  frame_accounting 0x80200000 0x2000 (seededState 0x80200000 0x2000)
    Relation.ReflTransGen.refl

/-- C10: re-seeding silently resets all accounting — `add_memory(start2, size2)`
on any allocator state, seeded or not and with any allocation marks, produces
exactly the state a fresh first seeding with `(start2, size2)` produces: all
three fields are overwritten and the usage sequence becomes
`size2 / PAGE_SIZE` all-free slots. -/
theorem add_memory_resets (fa : FrameAllocator) (start2 size2 : Nat) :
    fa.add_memory start2 size2 = FrameAllocator.new.add_memory start2 size2 ∧
    (fa.add_memory start2 size2).start = start2 ∧
    (fa.add_memory start2 size2).size = size2 ∧
    (fa.add_memory start2 size2).usage =
      List.replicate (size2 / PAGE_SIZE) false :=
  ⟨rfl, rfl, rfl, rfl⟩

end RV64OS
